import Mathlib

/-!
# Verification of the request-governance layer

Shallow embedding of the sliding-window rate limiter
(`src/lib/services/redis` : `checkRateLimit`), the rate-limiter middleware
rollback step (`src/lib/middleware/rate-limiter.ts`), and the read-through
cache engine (`cache`, `getJson`, `setJson`, `invalidateCache`).

The Shared Counter Store (Redis) is modelled as explicit state:
- a sorted set (ZSET) per key is a list of `(member, score)` pairs;
- `ZREMRANGEBYSCORE key -inf b` removes members with score ≤ b (both Redis
  range ends are inclusive, and the min is `-inf`);
- `ZADD` updates the score of an existing member, otherwise inserts;
- `ZRANGE key 0 0 WITHSCORES` returns the member with the least score;
- `ZREM key m` removes the entries whose member is `m`.

Store failures are modelled by an oracle `fails : Nat → Bool` telling
whether the i-th store call of the operation (in execution order) throws;
a throwing call performs no mutation, and earlier successful mutations
persist, exactly as with a remote store.  Times and scores are `Int`
(JavaScript millisecond timestamps).
-/

namespace ReqGov

/-- One ZSET entry: `(member, score)`. -/
abbrev Entry := String × Int

/-- A Redis sorted set, as the list of its entries. -/
abbrev ZSet := List Entry

/-- The store's sorted sets, keyed by string. -/
abbrev ZStore := String → ZSet

/-- Point update of the sorted-set store. -/
def updateF (st : ZStore) (k : String) (z : ZSet) : ZStore :=
  fun k' => if k' = k then z else st k'

/-- Model of `ZREMRANGEBYSCORE key -inf windowStart`: drop every entry whose score is
`≤ windowStart` (both Redis bounds are inclusive), keeping scores
strictly greater. -/
def purgeExpired (z : ZSet) (windowStart : Int) : ZSet :=
  z.filter fun p => windowStart < p.2

/-- Model of `ZADD key score member`: update the score when the member exists,
otherwise append a fresh entry. -/
def zadd (z : ZSet) (score : Int) (member : String) : ZSet :=
  if z.any fun p => p.1 = member then
    z.map fun p => if p.1 = member then (p.1, score) else p
  else
    z ++ [(member, score)]

/-- Model of `ZREM key member`: remove the entries whose member is `member`. -/
def zrem (z : ZSet) (member : String) : ZSet :=
  z.filter fun p => p.1 ≠ member

/-- Score of `ZRANGE key 0 0 WITHSCORES`: the least score in the set,
`none` when the set is empty. -/
def oldestScore? (z : ZSet) : Option Int :=
  (z.map Prod.snd).min?

/-- The member id generated by `checkRateLimit`: `` `${now}-${randomSuffix}` ``. -/
def mkMemberId (now : Int) (suffix : String) : String :=
  toString now ++ "-" ++ suffix

/-- Result of `checkRateLimit` (`resetAtMs` is `resetAt.getTime()`). -/
structure RLResult where
  allowed : Bool
  remaining : Int
  resetAtMs : Int
  memberId : Option String
  deriving Repr, DecidableEq

/-- The value returned by the `catch` block of `checkRateLimit`:
allow, full quota, full-window reset, no member id. -/
def failOpenResult (maxRequests windowMs now : Int) : RLResult :=
  ⟨true, maxRequests, now + windowMs, none⟩

/-- Failure oracle for a run in which every store call succeeds. -/
def noFail : Nat → Bool := fun _ => false

/-- Model of `checkRateLimit(identifier, maxRequests, windowMs)` from
`src/lib/services/redis` (rate-limit module), at clock value `now` and with
`suffix` the random suffix drawn for the member id.  `fails i` tells whether
the i-th store call of this run throws; the store calls are, in execution
order: 0 `zremrangebyscore`, 1 `zcard`, then on the admit branch 2 `zadd`,
3 `expire`, and on the deny branch 2 `zrange`.  A throwing call leaves the
store as it was, and the `catch` block returns `failOpenResult`; mutations
made by earlier successful calls persist.  `expire` only sets a key TTL and
does not change the set's contents. -/
def checkRateLimit (fails : Nat → Bool) (st : ZStore) (identifier : String)
    (maxRequests windowMs now : Int) (suffix : String) :
    RLResult × ZStore :=
  let key := "rate_limit:" ++ identifier
  let windowStart := now - windowMs
  if fails 0 then
    (failOpenResult maxRequests windowMs now, st)
  else
    let st1 := updateF st key (purgeExpired (st key) windowStart)
    if fails 1 then
      (failOpenResult maxRequests windowMs now, st1)
    else
      let count := (st1 key).length
      if (count : Int) < maxRequests then
        let memberId := mkMemberId now suffix
        if fails 2 then
          (failOpenResult maxRequests windowMs now, st1)
        else
          let st2 := updateF st1 key (zadd (st1 key) now memberId)
          if fails 3 then
            (failOpenResult maxRequests windowMs now, st2)
          else
            (⟨true, maxRequests - count - 1, now + windowMs, some memberId⟩, st2)
      else
        if fails 2 then
          (failOpenResult maxRequests windowMs now, st1)
        else
          let resetAtMs :=
            match oldestScore? (st1 key) with
            | some s => s + windowMs
            | none => now + windowMs
          (⟨false, 0, resetAtMs, none⟩, st1)

/-- A sequence of `checkRateLimit` calls for one identifier, each call
given by its clock value and its random suffix, threading the store;
returns the list of results and the final store. -/
def runCalls (identifier : String) (maxRequests windowMs : Int) :
    ZStore → List (Int × String) → List RLResult × ZStore
  | st, [] => ([], st)
  | st, c :: rest =>
      let r := checkRateLimit noFail st identifier maxRequests windowMs c.1 c.2
      let rs := runCalls identifier maxRequests windowMs r.2 rest
      (r.1 :: rs.1, rs.2)

/-- The store with no entry for any key. -/
def emptyStore : ZStore := fun _ => []

/-- A concrete store used to witness the rate-limit theorems:
two admitted members for identifier `A`, at timestamps 5 and 10. -/
def stTwo : ZStore :=
  fun k => if k = "rate_limit:A" then [("m1", (5 : Int)), ("m2", (10 : Int))] else []

/-- A one-entry store for identifier `A`: a member at timestamp 8 and one
exactly at the window boundary 7 (for `now = 10`, `windowMs = 3`). -/
def stBoundary : ZStore :=
  fun k => if k = "rate_limit:A" then [("a", (8 : Int)), ("b", (7 : Int))] else []

/-- Failure oracle where exactly the fourth store call of a run throws —
for an admitted `checkRateLimit` run, the `expire` call right after the
successful `zadd`. -/
def failExpire : Nat → Bool := fun i => i == 3

/-! ## Cache Engine

`cache`, `getJson`, `setJson` and `invalidateCache` from the Redis cache
module.  A cache store maps a key to `none` (absent) or `some jv`, where
`jv : Option V` is the parsed payload: `none` for the JSON text `null`
(what `JSON.stringify` produces from a JavaScript `null`), `some v`
otherwise.  Serialization round-trips faithfully
(`JSON.parse (JSON.stringify v) = v` for the payloads considered). -/

/-- A cache store: key to serialized payload. -/
abbrev CacheStore (V : Type) := String → Option (Option V)

/-- Model of `getJson(key)`: `redis.get`, then `JSON.parse`.  An absent key returns
JavaScript `null`, and a stored JSON `null` parses back to `null`, so the
two are indistinguishable for the caller.  (The code's falsy test
`if (!value) return null` also maps the empty string to `null`;
`JSON.stringify` never produces the empty string, so that case cannot
arise here.) -/
def getJson {V : Type} (st : CacheStore V) (k : String) : Option V :=
  (st k).bind id

/-- Model of `setJson(key, value, ttl)`: store the serialized payload. -/
def setJson {V : Type} (st : CacheStore V) (k : String) (v : Option V) :
    CacheStore V :=
  fun k' => if k' = k then some v else st k'

/-- Outcome of one `cache` call: the value returned to the caller
(`none` = JavaScript `null`), how many times the fetcher was invoked, and
the store afterwards. -/
structure CacheResult (V : Type) where
  value : Option V
  calls : Nat
  store : CacheStore V

/-- Model of `cache(key, fetcher, ttlSeconds)` from the Redis cache module.
`failRead` / `failWrite` tell whether `redis.get` (inside `getJson`) /
`redis.setex` (inside `setJson`) throws on this run; a throwing call does
not mutate the store.  The fetcher is modelled as pure, resolving to
`fetched` (`none` = it resolves to `null`).  The `catch` block answers any
store error with `return fetcher()` — note that on a write error the
fetcher has then run twice.  TTL bookkeeping is outside the state: the
claims below concern calls with no intervening expiry. -/
def cacheOp {V : Type} (failRead failWrite : Bool) (st : CacheStore V)
    (key : String) (fetched : Option V) : CacheResult V :=
  if failRead then
    ⟨fetched, 1, st⟩
  else
    match getJson st key with
    | some v => ⟨some v, 0, st⟩
    | none =>
        if failWrite then
          ⟨fetched, 2, st⟩
        else
          ⟨fetched, 1, setJson st key fetched⟩

/-- Model of `invalidateCache(pattern)`: `redis.keys(pattern)` — whose reply is
`matchedKeys` — then, when non-empty, one `redis.del` of them all.
`failKeys` / `failDel` tell whether the respective store call throws.  The
`catch` block logs and **rethrows**, so a store failure surfaces to the
caller as an error. -/
def invalidateCacheRun {V : Type} (failKeys failDel : Bool)
    (matchedKeys : List String) (st : CacheStore V) :
    Except Unit (Nat × CacheStore V) :=
  if failKeys then .error ()
  else if matchedKeys.isEmpty then .ok (0, st)
  else if failDel then .error ()
  else .ok ((matchedKeys.filter fun k => (st k).isSome).length,
    fun k => if matchedKeys.contains k then none else st k)

/-- The cache store with every key absent. -/
def emptyCache : CacheStore Nat := fun _ => none

/-! ## Rate Limit Middleware — rollback step

The post-response rollback of `rateLimiter` in
`src/lib/middleware/rate-limiter.ts`: at admission time (when
`skipSuccessfulRequests` or `skipFailedRequests` is set and a `memberId`
was returned) the middleware stores a Rollback Record under
`ratelimit:request:{requestId}`; after the response status is known, if
the configured skip condition matches, it reads the record and, when
present with truthy `key` and `memberId`, issues `ZREM key memberId` and
deletes the record. -/

/-- The Rollback Record
(`{ identifier, timestamp, memberId, key }`, stored as JSON). -/
structure RollbackRecord where
  identifier : String
  timestamp : Int
  memberId : String
  key : String
  deriving Repr, DecidableEq

/-- Store state seen by the middleware: the rate-limit sorted sets plus
the Rollback Records (their 60-second TTL is not modelled — the runs
considered stay within the record's lifetime). -/
structure MWState where
  zsets : ZStore
  records : String → Option RollbackRecord

/-- Storing the Rollback Record at admission time (`setWithExpiry` on
`ratelimit:request:{requestId}`). -/
def storeRollbackRecord (requestId : String) (rec : RollbackRecord)
    (st : MWState) : MWState :=
  { st with
    records := fun k =>
      if k = "ratelimit:request:" ++ requestId then some rec else st.records k }

/-- The middleware's skip test on the response:
`(skipSuccessfulRequests && status < 400) || (skipFailedRequests && status >= 400)`. -/
def skipMatches (skipSuccessful skipFailed : Bool) (status : Nat) : Bool :=
  (skipSuccessful && decide (status < 400)) || (skipFailed && decide (400 ≤ status))

/-- The rollback step run after the downstream response: when the skip
condition matches, look up the Rollback Record; if present and its `key`
and `memberId` are truthy (non-empty strings), remove that member from
the window set (`ZREM`) and delete the record; otherwise leave the store
unchanged. -/
def rollbackAfterResponse (skipSuccessful skipFailed : Bool) (status : Nat)
    (requestId : String) (st : MWState) : MWState :=
  if skipMatches skipSuccessful skipFailed status then
    match st.records ("ratelimit:request:" ++ requestId) with
    | some rec =>
        if rec.key ≠ "" ∧ rec.memberId ≠ "" then
          { zsets := updateF st.zsets rec.key (zrem (st.zsets rec.key) rec.memberId),
            records := fun k =>
              if k = "ratelimit:request:" ++ requestId then none
              else st.records k }
        else st
    | none => st
  else st

/-- A concrete middleware state for the C8 witness: two admitted members
for identifier `A`, no records yet. -/
def mwTwo : MWState :=
  ⟨fun k => if k = "rate_limit:A" then [("m1", (5 : Int)), ("m2", (10 : Int))] else [],
    fun _ => none⟩

@[simp] theorem updateF_same (st : ZStore) (k : String) (z : ZSet) :
    updateF st k z k = z := by simp [updateF]

theorem updateF_other (st : ZStore) (k k' : String) (z : ZSet) (h : k' ≠ k) :
    updateF st k z k' = st k' := by simp [updateF, h]

theorem runCalls_length (identifier : String) (maxRequests windowMs : Int)
    (st : ZStore) (calls : List (Int × String)) :
    (runCalls identifier maxRequests windowMs st calls).1.length = calls.length := by
  induction calls generalizing st with
  | nil => rfl
  | cons c rest ih => simp [runCalls, ih]

theorem purgeExpired_eq_self {z : ZSet} {ws : Int} (h : ∀ p ∈ z, ws < p.2) :
    purgeExpired z ws = z :=
  List.filter_eq_self.mpr (by intro p hp; simpa using h p hp)

theorem zadd_fresh {z : ZSet} {m : String} (h : m ∉ z.map Prod.fst) (sc : Int) :
    zadd z sc m = z ++ [(m, sc)] := by
  unfold zadd
  rw [if_neg]
  intro hany
  rcases List.any_eq_true.mp hany with ⟨p, hp, he⟩
  exact h (List.mem_map.mpr ⟨p, hp, by simpa using he⟩)

theorem updateF_updateF (st : ZStore) (k : String) (a b : ZSet) :
    updateF (updateF st k a) k b = updateF st k b := by
  funext k'
  by_cases h : k' = k <;> simp [updateF, h]

/-- On a failure-free run with no expired entry, a fresh member id and a
count below the limit, `checkRateLimit` admits, reports
`remaining = maxRequests − count − 1`, and appends the new member at score
`now`. -/
theorem checkRateLimit_noFail_step (st : ZStore) (identifier : String)
    (maxRequests windowMs now : Int) (suffix : String)
    (hkeep : ∀ p ∈ st ("rate_limit:" ++ identifier), now - windowMs < p.2)
    (hcount : ((st ("rate_limit:" ++ identifier)).length : Int) < maxRequests)
    (hfresh : mkMemberId now suffix ∉ (st ("rate_limit:" ++ identifier)).map Prod.fst) :
    checkRateLimit noFail st identifier maxRequests windowMs now suffix =
      (⟨true, maxRequests - (st ("rate_limit:" ++ identifier)).length - 1, now + windowMs,
          some (mkMemberId now suffix)⟩,
        updateF st ("rate_limit:" ++ identifier)
          (st ("rate_limit:" ++ identifier)
            ++ [(mkMemberId now suffix, now)])) := by
  unfold checkRateLimit
  simp only [noFail, Bool.false_eq_true, if_false, updateF_same,
    purgeExpired_eq_self hkeep, if_pos hcount, zadd_fresh hfresh, updateF_updateF]

/-- Induction workhorse for C1: starting from a store whose entries for the
identifier all have scores `≥ T`, running calls whose times lie in
`[T, T + windowMs)` with fresh, pairwise-distinct member ids and total
count within the limit, every call is admitted and the i-th result reports
`remaining = maxRequests − count₀ − (i+1)` where `count₀` is the initial
entry count. -/
theorem runCalls_allowed_aux (identifier : String) (maxRequests windowMs T : Int) :
    ∀ (calls : List (Int × String)) (st : ZStore),
    (∀ p ∈ st ("rate_limit:" ++ identifier), T ≤ p.2) →
    (∀ c ∈ calls, T ≤ c.1 ∧ c.1 < T + windowMs) →
    (((st ("rate_limit:" ++ identifier)).length : Int) + calls.length ≤ maxRequests) →
    (∀ c ∈ calls,
      mkMemberId c.1 c.2 ∉ (st ("rate_limit:" ++ identifier)).map Prod.fst) →
    ((calls.map fun c => mkMemberId c.1 c.2).Nodup) →
    ∀ i, i < calls.length →
      ((runCalls identifier maxRequests windowMs st calls).1.getD i
          ⟨false, 0, 0, none⟩).allowed = true ∧
      ((runCalls identifier maxRequests windowMs st calls).1.getD i
          ⟨false, 0, 0, none⟩).remaining
        = maxRequests - ((st ("rate_limit:" ++ identifier)).length : Int) - (i + 1) := by
  intro calls
  induction calls with
  | nil =>
    intro st _ _ _ _ _ i hi
    exact absurd hi (by simp)
  | cons c rest ih =>
    intro st hacc htimes hlen hfresh hnodup i hi
    rw [List.map_cons] at hnodup
    obtain ⟨hhead, htail⟩ := List.nodup_cons.mp hnodup
    have hkeep : ∀ p ∈ st ("rate_limit:" ++ identifier), c.1 - windowMs < p.2 := by
      intro p hp
      have h1 := hacc p hp
      have h2 := (htimes c (by simp)).2
      omega
    have hcount : ((st ("rate_limit:" ++ identifier)).length : Int) < maxRequests := by
      have : (rest.length : Int) + 1 ≤ maxRequests -
          ((st ("rate_limit:" ++ identifier)).length : Int) := by
        simp at hlen
        omega
      omega
    have hstep := checkRateLimit_noFail_step st identifier maxRequests windowMs c.1 c.2
      hkeep hcount (hfresh c (by simp))
    have hrun : runCalls identifier maxRequests windowMs st (c :: rest) =
        (⟨true, maxRequests - (st ("rate_limit:" ++ identifier)).length - 1, c.1 + windowMs,
            some (mkMemberId c.1 c.2)⟩ ::
          (runCalls identifier maxRequests windowMs
            (updateF st ("rate_limit:" ++ identifier)
              (st ("rate_limit:" ++ identifier) ++ [(mkMemberId c.1 c.2, c.1)])) rest).1,
          (runCalls identifier maxRequests windowMs
            (updateF st ("rate_limit:" ++ identifier)
              (st ("rate_limit:" ++ identifier) ++ [(mkMemberId c.1 c.2, c.1)])) rest).2) := by
      simp [runCalls, hstep]
    match i with
    | 0 =>
      rw [hrun]
      exact ⟨rfl, by simp⟩
    | Nat.succ j =>
      have hj : j < rest.length := by simpa using hi
      have hnext := ih (updateF st ("rate_limit:" ++ identifier)
          (st ("rate_limit:" ++ identifier) ++ [(mkMemberId c.1 c.2, c.1)]))
        (by
          intro p hp
          rw [updateF_same] at hp
          rcases List.mem_append.mp hp with h | h
          · exact hacc p h
          · have : p = (mkMemberId c.1 c.2, c.1) := by simpa using h
            subst this
            exact (htimes c (by simp)).1)
        (fun c' hc' => htimes c' (by simp [hc']))
        (by
          rw [updateF_same]
          simp at hlen ⊢
          omega)
        (by
          intro c' hc'
          rw [updateF_same]
          intro hmem
          rcases List.mem_map.mp hmem with ⟨p, hp, hpe⟩
          rcases List.mem_append.mp hp with h | h
          · exact hfresh c' (by simp [hc']) (List.mem_map.mpr ⟨p, h, hpe⟩)
          · have hp' : p = (mkMemberId c.1 c.2, c.1) := by simpa using h
            subst hp'
            have heq : mkMemberId c'.1 c'.2 = mkMemberId c.1 c.2 := by
              simpa using hpe.symm
            exact hhead (heq ▸ List.mem_map.mpr ⟨c', hc', rfl⟩))
        htail
        j hj
      rw [hrun]
      refine ⟨hnext.1, ?_⟩
      rw [List.getD_cons_succ]
      rw [hnext.2, updateF_same]
      push_cast
      simp
      ring

/-- C1: for any sequence of at most `maxRequests` failure-free
`checkRateLimit` calls with the same identifier, starting from no prior
entries, all within `windowMs` of the first call and with distinct member
ids, every call is admitted and the i-th call (0-based `i`, so 1-based
`i + 1`) reports `remaining = maxRequests − (i + 1)` — `remaining`
decreases by exactly 1 per call. -/
theorem runCalls_within_window_allowed (identifier : String)
    (maxRequests windowMs T : Int) (s0 : String) (rest : List (Int × String))
    (st : ZStore)
    (hw : 0 < windowMs)
    (hprior : st ("rate_limit:" ++ identifier) = [])
    (hn : ((((T, s0) :: rest).length : Nat) : Int) ≤ maxRequests)
    (htimes : ∀ c ∈ rest, T ≤ c.1 ∧ c.1 < T + windowMs)
    (hids : (((T, s0) :: rest).map fun c => mkMemberId c.1 c.2).Nodup) :
    ∀ i, i < ((T, s0) :: rest).length →
      ((runCalls identifier maxRequests windowMs st ((T, s0) :: rest)).1.getD i
          ⟨false, 0, 0, none⟩).allowed = true ∧
      ((runCalls identifier maxRequests windowMs st ((T, s0) :: rest)).1.getD i
          ⟨false, 0, 0, none⟩).remaining = maxRequests - (i + 1) := by
  intro i hi
  have h := runCalls_allowed_aux identifier maxRequests windowMs T ((T, s0) :: rest) st
    (by rw [hprior]; simp)
    (by
      intro c hc
      rcases List.mem_cons.mp hc with h | h
      · subst h; exact ⟨le_refl _, by omega⟩
      · exact htimes c h)
    (by rw [hprior]; simpa using hn)
    (by intro c hc; rw [hprior]; simp)
    hids i hi
  rw [hprior] at h
  simpa using h

/-- Witness for C1, the spec's concrete scenario: `maxRequests = 3`,
`windowMs = 1000`, calls at t = 0, 100, 200 — the third call (i = 2) is
admitted with `remaining = 0`. -/
theorem runCalls_within_window_allowed_witness :
    ((0 : Int) < 1000 ∧ emptyStore "rate_limit:A" = [] ∧
      (((((0 : Int), "a") :: [((100 : Int), "b"), ((200 : Int), "c")]).length : Nat) : Int) ≤ 3 ∧
      (∀ c ∈ [((100 : Int), "b"), ((200 : Int), "c")], (0 : Int) ≤ c.1 ∧ c.1 < 0 + 1000) ∧
      ((((0 : Int), "a") :: [((100 : Int), "b"), ((200 : Int), "c")]).map
        fun c => mkMemberId c.1 c.2).Nodup) ∧
    ((runCalls "A" 3 1000 emptyStore
        (((0 : Int), "a") :: [((100 : Int), "b"), ((200 : Int), "c")])).1.getD 2
        ⟨false, 0, 0, none⟩).allowed = true ∧
    ((runCalls "A" 3 1000 emptyStore
        (((0 : Int), "a") :: [((100 : Int), "b"), ((200 : Int), "c")])).1.getD 2
        ⟨false, 0, 0, none⟩).remaining = 3 - (2 + 1) :=
  ⟨⟨by decide, rfl, by decide, by decide, by decide⟩,
    runCalls_within_window_allowed "A" 3 1000 0 "a" [(100, "b"), (200, "c")] emptyStore
      (by decide) rfl (by decide) (by decide) (by decide) 2 (by decide)⟩

/-- C2: when the window set already holds `maxRequests` unexpired members,
the call is denied with `remaining = 0` and `resetAt` is the oldest
surviving member's timestamp plus `windowMs`, falling back to
`now + windowMs` when no oldest member can be read. -/
theorem checkRateLimit_denied (st : ZStore) (identifier : String)
    (maxRequests windowMs now : Int) (suffix : String)
    (hfull : ((purgeExpired (st ("rate_limit:" ++ identifier)) (now - windowMs)).length : Int)
      = maxRequests) :
    (checkRateLimit noFail st identifier maxRequests windowMs now suffix).1 =
      ⟨false, 0,
        match oldestScore? (purgeExpired (st ("rate_limit:" ++ identifier)) (now - windowMs)) with
        | some s => s + windowMs
        | none => now + windowMs,
        none⟩ := by
  unfold checkRateLimit
  simp [noFail, hfull]

/-- Witness for C2: with two unexpired members (timestamps 5 and 10),
`maxRequests = 2`, `windowMs = 100`, `now = 20`, the third call is denied
and `resetAt` is `5 + 100 = 105`. -/
theorem checkRateLimit_denied_witness :
    ((purgeExpired (stTwo "rate_limit:A") (20 - 100)).length : Int) = 2 ∧
    (checkRateLimit noFail stTwo "A" 2 100 20 "s").1 = ⟨false, 0, 105, none⟩ :=
  ⟨by decide, (checkRateLimit_denied stTwo "A" 2 100 20 "s" (by decide)).trans (by decide)⟩

/-- C4: the purge step removes exactly the entries with score
`≤ windowStart` — in particular an entry sitting exactly at the boundary —
so when every stored score is `≤ now` the surviving, counted entries are
exactly those in the half-open window `(now − windowMs, now]`, and (absent
store failures) the call is admitted iff that count is below `maxRequests`. -/
theorem checkRateLimit_window_halfOpen (st : ZStore) (identifier : String)
    (maxRequests windowMs now : Int) (suffix : String)
    (hpast : ∀ p ∈ st ("rate_limit:" ++ identifier), p.2 ≤ now) :
    (∀ p : Entry, p ∈ purgeExpired (st ("rate_limit:" ++ identifier)) (now - windowMs) ↔
        (p ∈ st ("rate_limit:" ++ identifier) ∧ now - windowMs < p.2 ∧ p.2 ≤ now)) ∧
    (∀ m : String,
      (m, now - windowMs) ∉ purgeExpired (st ("rate_limit:" ++ identifier)) (now - windowMs)) ∧
    ((checkRateLimit noFail st identifier maxRequests windowMs now suffix).1.allowed = true ↔
      ((purgeExpired (st ("rate_limit:" ++ identifier)) (now - windowMs)).length : Int)
        < maxRequests) := by
  refine ⟨?_, ?_, ?_⟩
  · intro p
    constructor
    · intro hp
      rcases List.mem_filter.mp hp with ⟨hmem, hlt⟩
      exact ⟨hmem, by simpa using hlt, hpast p hmem⟩
    · intro ⟨hmem, hlt, _⟩
      exact List.mem_filter.mpr ⟨hmem, by simpa using hlt⟩
  · intro m hm
    rcases List.mem_filter.mp hm with ⟨_, hlt⟩
    simp at hlt
  · unfold checkRateLimit
    simp only [noFail, Bool.false_eq_true, if_false, updateF_same]
    split
    · simp_all
    · simp_all

/-- Witness for C4 at `now = 10`, `windowMs = 3`: all scores are `≤ 10`,
the boundary member `("b", 7)` is purged, `("a", 8)` survives, and the call
is admitted iff the surviving count 1 is below `maxRequests = 5`. -/
theorem checkRateLimit_window_halfOpen_witness :
    (∀ p ∈ stBoundary "rate_limit:A", p.2 ≤ 10) ∧
    (("b", (7 : Int)) ∈ stBoundary "rate_limit:A" ∧
      ("b", (7 : Int)) ∉ purgeExpired (stBoundary "rate_limit:A") (10 - 3)) ∧
    ((checkRateLimit noFail stBoundary "A" 5 3 10 "s").1.allowed = true ↔
      ((purgeExpired (stBoundary "rate_limit:A") (10 - 3)).length : Int) < 5) :=
  ⟨by decide, ⟨by decide, by decide⟩,
    (checkRateLimit_window_halfOpen stBoundary "A" 5 3 10 "s" (by decide)).2.2⟩

/-- C9: with `maxRequests ≥ 1`, on every path — admit, deny, or any store
failure — the returned `remaining` lies in `[0, maxRequests]`, and a denial
always reports `remaining = 0`. -/
theorem checkRateLimit_remaining_inv (fails : Nat → Bool) (st : ZStore)
    (identifier : String) (maxRequests windowMs now : Int) (suffix : String)
    (hmax : 1 ≤ maxRequests) :
    0 ≤ (checkRateLimit fails st identifier maxRequests windowMs now suffix).1.remaining ∧
    (checkRateLimit fails st identifier maxRequests windowMs now suffix).1.remaining
      ≤ maxRequests ∧
    ((checkRateLimit fails st identifier maxRequests windowMs now suffix).1.allowed = false →
      (checkRateLimit fails st identifier maxRequests windowMs now suffix).1.remaining = 0) := by
  unfold checkRateLimit failOpenResult
  dsimp only
  split_ifs <;>
    exact ⟨by dsimp only; omega, by dsimp only; omega, by dsimp only; intro h; simp_all⟩

/-- Witness for C9 at `maxRequests = 1` on an empty store with no
failures: `remaining` is within bounds. -/
theorem checkRateLimit_remaining_inv_witness :
    (1 : Int) ≤ 1 ∧
    (0 ≤ (checkRateLimit noFail (fun _ => []) "A" 1 100 50 "s").1.remaining ∧
      (checkRateLimit noFail (fun _ => []) "A" 1 100 50 "s").1.remaining ≤ 1 ∧
      ((checkRateLimit noFail (fun _ => []) "A" 1 100 50 "s").1.allowed = false →
        (checkRateLimit noFail (fun _ => []) "A" 1 100 50 "s").1.remaining = 0)) :=
  ⟨by decide, checkRateLimit_remaining_inv noFail (fun _ => []) "A" 1 100 50 "s" (by decide)⟩

/-- C3 exhibit: when only the `expire` call throws, `checkRateLimit`
returns the fail-open result with no member id — yet the admission record
written by the preceding `zadd` remains in the window set, contradicting
the code's own comment "No memberId on error (no entry was added)". -/
theorem checkRateLimit_expire_failure_leaves_record :
    (checkRateLimit failExpire emptyStore "A" 5 1000 0 "r").1 = failOpenResult 5 1000 0 ∧
    (checkRateLimit failExpire emptyStore "A" 5 1000 0 "r").1.memberId = none ∧
    (checkRateLimit failExpire emptyStore "A" 5 1000 0 "r").2 "rate_limit:A" =
      [(mkMemberId 0 "r", 0)] := by
  refine ⟨?_, ?_, ?_⟩ <;> decide

/-- C5 counterexample: with a fetcher that resolves to `null` and an empty
store, two successive failure-free `cache` calls for the same key invoke
the fetcher once each — two invocations in total, refuting "at most once
in total".  (The stored JSON `null` reads back as a miss; see C10.) -/
theorem cache_called_twice_two_fetches :
    ¬((cacheOp false false emptyCache "k" none).calls +
        (cacheOp false false (cacheOp false false emptyCache "k" none).store
          "k" none).calls ≤ 1) := by
  decide

/-- C5 amended: two successive failure-free `cache` calls with the same
key and a fetcher resolving to a **non-null** value invoke the fetcher at
most once in total and return the same value; and a first-call hit returns
the stored value with no fetcher invocation at all. -/
theorem cache_idempotent_nonnull {V : Type} (st : CacheStore V) (key : String)
    (v : V) :
    ((cacheOp false false st key (some v)).calls +
        (cacheOp false false (cacheOp false false st key (some v)).store key
          (some v)).calls ≤ 1) ∧
    (cacheOp false false (cacheOp false false st key (some v)).store key
        (some v)).value = (cacheOp false false st key (some v)).value ∧
    (∀ w, getJson st key = some w →
      (cacheOp false false st key (some v)).calls = 0 ∧
      (cacheOp false false st key (some v)).value = some w) := by
  cases hget : getJson st key with
  | some w =>
    refine ⟨?_, ?_, ?_⟩ <;> simp [cacheOp, hget]
  | none =>
    have hstep : cacheOp false false st key (some v) =
        ⟨some v, 1, setJson st key (some v)⟩ := by
      simp [cacheOp, hget]
    have hget2 : getJson (setJson st key (some v)) key = some v := by
      simp [getJson, setJson]
    rw [hstep]
    refine ⟨?_, ?_, ?_⟩ <;> simp [cacheOp, hget, hget2]

/-- Witness for C5 (amended) with a one-entry store: the first call hits,
the fetcher never runs, and both calls return the stored value 7. -/
theorem cache_idempotent_nonnull_witness :
    ((cacheOp false false (fun k => if k = "k" then some (some 7) else none)
        "k" (some (5 : Nat))).calls +
      (cacheOp false false
        (cacheOp false false (fun k => if k = "k" then some (some 7) else none)
          "k" (some (5 : Nat))).store "k" (some (5 : Nat))).calls ≤ 1) ∧
    (cacheOp false false
        (cacheOp false false (fun k => if k = "k" then some (some 7) else none)
          "k" (some (5 : Nat))).store "k" (some (5 : Nat))).value =
      (cacheOp false false (fun k => if k = "k" then some (some 7) else none)
        "k" (some (5 : Nat))).value ∧
    (getJson (fun k => if k = "k" then some (some 7) else none) "k" = some 7 ∧
      (cacheOp false false (fun k => if k = "k" then some (some 7) else none)
        "k" (some (5 : Nat))).calls = 0 ∧
      (cacheOp false false (fun k => if k = "k" then some (some 7) else none)
        "k" (some (5 : Nat))).value = some 7) :=
  ⟨(cache_idempotent_nonnull (fun k => if k = "k" then some (some 7) else none)
      "k" 5).1,
    (cache_idempotent_nonnull (fun k => if k = "k" then some (some 7) else none)
      "k" 5).2.1,
    by decide,
    ((cache_idempotent_nonnull (fun k => if k = "k" then some (some 7) else none)
      "k" 5).2.2 7 (by decide)).1,
    ((cache_idempotent_nonnull (fun k => if k = "k" then some (some 7) else none)
      "k" 5).2.2 7 (by decide)).2⟩

/-- C6: whenever a store operation inside `cache` actually throws — the
read, or the write after a miss — the call still returns the fetcher's
value and invokes the fetcher at least once; no error reaches the caller
(`cacheOp` is total — the `catch` block swallows the store error). -/
theorem cache_store_error_returns_fetched {V : Type} (failRead failWrite : Bool)
    (st : CacheStore V) (key : String) (fetched : Option V)
    (herr : failRead = true ∨ (getJson st key = none ∧ failWrite = true)) :
    (cacheOp failRead failWrite st key fetched).value = fetched ∧
    1 ≤ (cacheOp failRead failWrite st key fetched).calls := by
  rcases herr with h | ⟨hmiss, h⟩
  · subst h
    exact ⟨rfl, le_refl 1⟩
  · subst h
    cases hr : failRead
    · simp [cacheOp, hmiss]
    · simp [cacheOp]

/-- Witness for C6: a failing read over the empty store still returns the
fetched value 3. -/
theorem cache_store_error_returns_fetched_witness :
    (true = true ∨ (getJson emptyCache "k" = none ∧ false = true)) ∧
    (cacheOp true false emptyCache "k" (some 3)).value = some 3 ∧
    1 ≤ (cacheOp true false emptyCache "k" (some 3)).calls :=
  ⟨Or.inl rfl,
    (cache_store_error_returns_fetched true false emptyCache "k" (some 3)
      (Or.inl rfl)).1,
    (cache_store_error_returns_fetched true false emptyCache "k" (some 3)
      (Or.inl rfl)).2⟩

/-- C7 counterexample: when `redis.keys` throws, `invalidateCache` returns
the error to its caller — the store failure is surfaced, not recovered
locally. -/
theorem invalidateCache_error_surfaces :
    invalidateCacheRun (V := Nat) true false ["a"] emptyCache =
      Except.error () := rfl

/-- C7 amended: `cache` never surfaces a store error (see the C6 theorem —
`cacheOp` is total), but `invalidateCache` propagates store errors: it
returns an error exactly when `redis.keys` throws, or some key matched and
`redis.del` throws. -/
theorem invalidateCache_error_iff {V : Type} (failKeys failDel : Bool)
    (matchedKeys : List String) (st : CacheStore V) :
    invalidateCacheRun failKeys failDel matchedKeys st = Except.error () ↔
      (failKeys = true ∨ (matchedKeys ≠ [] ∧ failDel = true)) := by
  unfold invalidateCacheRun
  cases failKeys
  · cases hm : matchedKeys.isEmpty
    · cases failDel <;>
        simp_all [List.isEmpty_iff]
    · simp_all [List.isEmpty_iff]
  · simp

/-- Witness for C7 (amended): a failing `redis.del` on one matched key
surfaces the error. -/
theorem invalidateCache_error_iff_witness :
    (invalidateCacheRun (V := Nat) false true ["a"] emptyCache =
        Except.error () ↔
      (false = true ∨ ((["a"] : List String) ≠ [] ∧ true = true))) ∧
    invalidateCacheRun (V := Nat) false true ["a"] emptyCache =
      Except.error () :=
  ⟨invalidateCache_error_iff false true ["a"] emptyCache,
    (invalidateCache_error_iff false true ["a"] emptyCache).mpr
      (Or.inr ⟨by decide, rfl⟩)⟩

/-- C10: a fetcher resolving to `null` on a miss has its `null` written to
the store, but the stored JSON `null` reads back as `null` and so fails
the `cached !== null` hit test: the next call misses again, invokes the
fetcher again, and leaves the store in the same shape — a null value is
never served from the cache. -/
theorem cache_null_never_served {V : Type} (st : CacheStore V) (key : String)
    (hmiss : getJson st key = none) :
    (cacheOp false false st key (none : Option V)).store key = some none ∧
    (cacheOp false false st key (none : Option V)).calls = 1 ∧
    (cacheOp false false (cacheOp false false st key (none : Option V)).store
        key (none : Option V)).calls = 1 ∧
    (cacheOp false false (cacheOp false false st key (none : Option V)).store
        key (none : Option V)).value = none ∧
    (cacheOp false false (cacheOp false false st key (none : Option V)).store
        key (none : Option V)).store key = some none := by
  have hstep : cacheOp false false st key (none : Option V) =
      ⟨none, 1, setJson st key none⟩ := by
    simp [cacheOp, hmiss]
  have hget2 : getJson (setJson st key (none : Option V)) key = none := by
    simp [getJson, setJson]
  rw [hstep]
  refine ⟨by simp [setJson], rfl, ?_, ?_, ?_⟩ <;>
    simp [cacheOp, hget2, setJson]

/-- Witness for C10 on the empty store: the `null` is stored, and the
second call still invokes the fetcher. -/
theorem cache_null_never_served_witness :
    getJson emptyCache "k" = none ∧
    ((cacheOp false false emptyCache "k" none).store "k" = some none ∧
      (cacheOp false false emptyCache "k" none).calls = 1 ∧
      (cacheOp false false (cacheOp false false emptyCache "k" none).store
        "k" none).calls = 1 ∧
      (cacheOp false false (cacheOp false false emptyCache "k" none).store
        "k" none).value = none ∧
      (cacheOp false false (cacheOp false false emptyCache "k" none).store
        "k" none).store "k" = some none) :=
  ⟨rfl, cache_null_never_served emptyCache "k" rfl⟩

theorem rateLimitKey_ne_empty (identifier : String) :
    "rate_limit:" ++ identifier ≠ "" := by
  intro h
  have hlen := congrArg String.length h
  rw [String.length_append] at hlen
  have h1 : ("rate_limit:").length = 11 := rfl
  have h2 : ("" : String).length = 0 := rfl
  omega

theorem zrem_length_of_mem :
    ∀ (z : ZSet) (mid : String) (s : Int),
    (mid, s) ∈ z → (z.map Prod.fst).Nodup →
    (zrem z mid).length + 1 = z.length := by
  intro z
  induction z with
  | nil =>
    intro mid s h _
    exact absurd h (by simp)
  | cons p z' ih =>
    intro mid s hmem hnodup
    rw [List.map_cons] at hnodup
    obtain ⟨hp, hnd⟩ := List.nodup_cons.mp hnodup
    rcases List.mem_cons.mp hmem with h | h
    · have hpm : p.1 = mid := by rw [← h]
      have hall : z'.filter (fun q => q.1 ≠ mid) = z' := by
        refine List.filter_eq_self.mpr ?_
        intro q hq
        simp only [ne_eq, decide_eq_true_eq]
        intro hqe
        exact hp (hpm ▸ hqe ▸ List.mem_map.mpr ⟨q, hq, rfl⟩)
      unfold zrem
      rw [List.filter_cons, if_neg (by simp [hpm]), hall]
      simp
    · have hmid : mid ∈ z'.map Prod.fst := List.mem_map.mpr ⟨(mid, s), h, rfl⟩
      have hpm : p.1 ≠ mid := fun he => hp (he ▸ hmid)
      unfold zrem
      rw [List.filter_cons, if_pos (by simp [hpm])]
      have := ih mid s h hnd
      unfold zrem at this
      simp only [List.length_cons]
      omega

theorem purge_zrem_comm (z : ZSet) (ws : Int) (mid : String) :
    purgeExpired (zrem z mid) ws = zrem (purgeExpired z ws) mid := by
  unfold purgeExpired zrem
  rw [List.filter_filter, List.filter_filter]
  congr 1
  funext p
  exact Bool.and_comm _ _

theorem purgeExpired_nodup_fst {z : ZSet} (ws : Int)
    (h : (z.map Prod.fst).Nodup) :
    ((purgeExpired z ws).map Prod.fst).Nodup :=
  ((List.filter_sublist z).map Prod.fst).nodup h

/-- C8: once the Rollback Record for the admitted request is stored and
the skip condition matches the response status, the rollback step removes
exactly the admitted `memberId` from the window set — leaving every other
member in place — and deletes the Rollback Record; a subsequent
`checkRateLimit` purge for the same identifier then counts exactly one
request fewer, whenever the rolled-back member would still have been
unexpired. -/
theorem rollback_one_fewer (skipSuccessful skipFailed : Bool) (status : Nat)
    (requestId identifier mid : String) (ts s : Int) (st : MWState)
    (hmatch : skipMatches skipSuccessful skipFailed status = true)
    (hmid : mid ≠ "")
    (hmem : (mid, s) ∈ st.zsets ("rate_limit:" ++ identifier))
    (hnodup : ((st.zsets ("rate_limit:" ++ identifier)).map Prod.fst).Nodup) :
    (rollbackAfterResponse skipSuccessful skipFailed status requestId
        (storeRollbackRecord requestId
          ⟨identifier, ts, mid, "rate_limit:" ++ identifier⟩ st)).zsets
        ("rate_limit:" ++ identifier)
      = zrem (st.zsets ("rate_limit:" ++ identifier)) mid ∧
    (∀ p ∈ st.zsets ("rate_limit:" ++ identifier), p.1 ≠ mid →
      p ∈ (rollbackAfterResponse skipSuccessful skipFailed status requestId
        (storeRollbackRecord requestId
          ⟨identifier, ts, mid, "rate_limit:" ++ identifier⟩ st)).zsets
        ("rate_limit:" ++ identifier)) ∧
    (rollbackAfterResponse skipSuccessful skipFailed status requestId
        (storeRollbackRecord requestId
          ⟨identifier, ts, mid, "rate_limit:" ++ identifier⟩ st)).records
        ("ratelimit:request:" ++ requestId) = none ∧
    (∀ k, k ≠ "rate_limit:" ++ identifier →
      (rollbackAfterResponse skipSuccessful skipFailed status requestId
        (storeRollbackRecord requestId
          ⟨identifier, ts, mid, "rate_limit:" ++ identifier⟩ st)).zsets k
        = st.zsets k) ∧
    (∀ ws : Int, ws < s →
      (purgeExpired ((rollbackAfterResponse skipSuccessful skipFailed status
          requestId (storeRollbackRecord requestId
            ⟨identifier, ts, mid, "rate_limit:" ++ identifier⟩ st)).zsets
          ("rate_limit:" ++ identifier)) ws).length + 1
        = (purgeExpired (st.zsets ("rate_limit:" ++ identifier)) ws).length) := by
  have hrec : (storeRollbackRecord requestId
      ⟨identifier, ts, mid, "rate_limit:" ++ identifier⟩ st).records
      ("ratelimit:request:" ++ requestId)
      = some ⟨identifier, ts, mid, "rate_limit:" ++ identifier⟩ := by
    simp [storeRollbackRecord]
  have hzs : (storeRollbackRecord requestId
      ⟨identifier, ts, mid, "rate_limit:" ++ identifier⟩ st).zsets = st.zsets :=
    rfl
  have hroll : rollbackAfterResponse skipSuccessful skipFailed status requestId
      (storeRollbackRecord requestId
        ⟨identifier, ts, mid, "rate_limit:" ++ identifier⟩ st) =
      { zsets := updateF st.zsets ("rate_limit:" ++ identifier)
          (zrem (st.zsets ("rate_limit:" ++ identifier)) mid),
        records := fun k =>
          if k = "ratelimit:request:" ++ requestId then none
          else (storeRollbackRecord requestId
            ⟨identifier, ts, mid, "rate_limit:" ++ identifier⟩ st).records k } := by
    unfold rollbackAfterResponse
    rw [hmatch, hrec]
    simp only [if_true]
    rw [if_pos ⟨rateLimitKey_ne_empty identifier, hmid⟩]
    rfl
  rw [hroll]
  refine ⟨by simp, ?_, by simp, ?_, ?_⟩
  · intro p hp hne
    simp only [updateF_same]
    exact List.mem_filter.mpr ⟨hp, by simpa using hne⟩
  · intro k hk
    exact updateF_other _ _ _ _ hk
  · intro ws hws
    simp only [updateF_same]
    rw [purge_zrem_comm]
    exact zrem_length_of_mem _ mid s
      (List.mem_filter.mpr ⟨hmem, by simpa using hws⟩)
      (purgeExpired_nodup_fst ws hnodup)

/-- Witness for C8: `skipSuccessfulRequests` with a 200 response rolls
back member `m1`; the record is deleted, `m2` survives, and the purged
count at window start 0 drops from 2 to 1. -/
theorem rollback_one_fewer_witness :
    skipMatches true false 200 = true ∧
    (rollbackAfterResponse true false 200 "r1"
        (storeRollbackRecord "r1" ⟨"A", 5, "m1", "rate_limit:A"⟩ mwTwo)).zsets
        "rate_limit:A"
      = zrem (mwTwo.zsets "rate_limit:A") "m1" ∧
    (rollbackAfterResponse true false 200 "r1"
        (storeRollbackRecord "r1" ⟨"A", 5, "m1", "rate_limit:A"⟩ mwTwo)).records
        ("ratelimit:request:" ++ "r1") = none ∧
    (purgeExpired ((rollbackAfterResponse true false 200 "r1"
        (storeRollbackRecord "r1" ⟨"A", 5, "m1", "rate_limit:A"⟩ mwTwo)).zsets
        "rate_limit:A") 0).length + 1
      = (purgeExpired (mwTwo.zsets "rate_limit:A") 0).length :=
  ⟨by decide,
    (rollback_one_fewer true false 200 "r1" "A" "m1" 5 5 mwTwo
      (by decide) (by decide) (by decide) (by decide)).1,
    (rollback_one_fewer true false 200 "r1" "A" "m1" 5 5 mwTwo
      (by decide) (by decide) (by decide) (by decide)).2.2.1,
    (rollback_one_fewer true false 200 "r1" "A" "m1" 5 5 mwTwo
      (by decide) (by decide) (by decide) (by decide)).2.2.2.2 0 (by decide)⟩

end ReqGov
